import Mathlib

/-!
Shallow embedding of the adherence / adaptive-reminder engine of the
Next_Gen_Rakshak app (TypeScript + SQLite), together with proofs of the
specification claims about it.

Modelling conventions:
* Timestamps are epoch milliseconds as `ℤ`.  SQLite `date(x)` (the UTC
  calendar date of a timestamp) is modelled as floor division by the number
  of milliseconds per day, and the JavaScript `getHours()` / `getMinutes()`
  as Euclidean div/mod, which agree with calendar arithmetic also for
  negative timestamps.
* JavaScript `Math.round` is `⌊x + 1/2⌋` (round half towards +∞).
* A SQL query `SELECT ... WHERE p` over a table is a `List.filter` over the
  list of rows; `COUNT(*)` is `List.length`.
-/

namespace Rakshak

/-- JavaScript `Math.round`: round half towards positive infinity. -/
def jsRound (q : ℚ) : ℤ := ⌊q + 1/2⌋

def msPerMinute : ℤ := 60000

def msPerHour : ℤ := 3600000

def msPerDay : ℤ := 86400000

/-- Calendar day index of an epoch-ms timestamp (SQLite `date(...)`). -/
def dayOf (t : ℤ) : ℤ := t.ediv msPerDay

/-- Hour-of-day of an epoch-ms timestamp (JS `Date.getHours`, UTC). -/
def hourOf (t : ℤ) : ℤ := (t.ediv msPerHour).emod 24

/-- Minute-of-hour of an epoch-ms timestamp (JS `Date.getMinutes`). -/
def minuteOf (t : ℤ) : ℤ := (t.ediv msPerMinute).emod 60

/-- Dose-log status (`MedicineLogs.status`). -/
inductive Status where
  | pending
  | taken
  | missed
  | skipped
deriving DecidableEq, Repr

/-- One row of the `MedicineLogs` table. -/
structure MedicineLog where
  id : ℕ
  medicineId : ℕ
  patientId : ℕ
  scheduledTime : ℤ
  takenAt : Option ℤ
  status : Status
deriving DecidableEq, Repr

/-- Rows of `SELECT * FROM MedicineLogs WHERE patientId = ? AND
date(scheduledTime) = date(today)` (the "today" window of
`calculateAdherenceRate` and `updateAdherenceStats`). -/
def todayLogs (logs : List MedicineLog) (patientId : ℕ) (today : ℤ) :
    List MedicineLog :=
  logs.filter fun l =>
    l.patientId == patientId && dayOf l.scheduledTime == dayOf today

/-- The `SUM(CASE WHEN status = taken THEN 1 ELSE 0 END)` aggregate. -/
def takenCount (ls : List MedicineLog) : ℕ :=
  (ls.filter fun l => l.status == Status.taken).length

/-- Function `calculateAdherenceRate` (medicineService): the adherence percentage of the current day;
`100` when there are no logs today, otherwise `Math.round(taken/total*100)`. -/
def calculateAdherenceRate (logs : List MedicineLog) (patientId : ℕ)
    (today : ℤ) : ℤ :=
  let ls := todayLogs logs patientId today
  if ls.length = 0 then 100
  else jsRound ((takenCount ls : ℚ) / (ls.length : ℚ) * 100)

/-- Rows of the trailing-7-day window of `calculateWeeklyAdherence`:
`date(scheduledTime) >= date(today - 7 days)`. -/
def weekLogs (logs : List MedicineLog) (patientId : ℕ) (today : ℤ) :
    List MedicineLog :=
  logs.filter fun l =>
    l.patientId == patientId && decide (dayOf today - 7 ≤ dayOf l.scheduledTime)

/-- Function `calculateWeeklyAdherence` (medicineService): trailing-7-day adherence
percentage; `100` when the window has no logs. -/
def calculateWeeklyAdherence (logs : List MedicineLog) (patientId : ℕ)
    (today : ℤ) : ℤ :=
  let ls := weekLogs logs patientId today
  if ls.length = 0 then 100
  else jsRound ((takenCount ls : ℚ) / (ls.length : ℚ) * 100)

/-! ### Adaptive reminder engine (adaptiveTimeService.ts) -/

def MIN_DAYS_FOR_ADAPTIVE : ℕ := 3

def MAX_DAYS_TO_ANALYZE : ℤ := 5

/-- Rows of the query of `calculateMeanDelay`: taken logs of the (patient,
medicine) pair with a non-null `takenAt` whose scheduled date lies in the
trailing `MAX_DAYS_TO_ANALYZE`-day window.  (The `ORDER BY` of the query does not
affect the sums and counts computed from it.) -/
def adaptiveWindowLogs (logs : List MedicineLog) (patientId medicineId : ℕ)
    (today : ℤ) : List MedicineLog :=
  logs.filter fun l =>
    l.patientId == patientId && l.medicineId == medicineId &&
    l.status == Status.taken && l.takenAt.isSome &&
    decide (dayOf today - MAX_DAYS_TO_ANALYZE ≤ dayOf l.scheduledTime)

/-- The value `(takenTime - scheduledTime) / (1000 * 60)`: the delay of a log in
minutes (a rational; `0` when `takenAt` is null). -/
def delayMinutes (l : MedicineLog) : ℚ :=
  match l.takenAt with
  | some t => ((t : ℚ) - (l.scheduledTime : ℚ)) / (1000 * 60)
  | none => 0

/-- The `forEach` accumulation of `calculateMeanDelay`: sum of the strictly
positive delays (early or on-time doses contribute nothing). -/
def posDelaySum (ls : List MedicineLog) : ℚ :=
  ls.foldl
    (fun acc l =>
      match l.takenAt with
      | some _ => if 0 < delayMinutes l then acc + delayMinutes l else acc
      | none => acc)
    0

structure MeanDelayResult where
  meanDelay : ℤ
  daysAnalyzed : ℕ
deriving DecidableEq, Repr

/-- Function `calculateMeanDelay` (adaptiveTimeService): below
`MIN_DAYS_FOR_ADAPTIVE` qualifying logs, delay `0`; otherwise
`Math.round` of the positive-delay sum divided by the number of qualifying
logs. -/
def calculateMeanDelay (logs : List MedicineLog) (patientId medicineId : ℕ)
    (today : ℤ) : MeanDelayResult :=
  let ls := adaptiveWindowLogs logs patientId medicineId today
  if ls.length < MIN_DAYS_FOR_ADAPTIVE then
    { meanDelay := 0, daysAnalyzed := ls.length }
  else
    { meanDelay := jsRound (posDelaySum ls / (ls.length : ℚ)),
      daysAnalyzed := ls.length }

/-- The rendering `toString().padStart(2, ...)` with a zero pad, on a number below 100. -/
def pad2 (n : ℕ) : String := if n < 10 then "0" ++ toString n else toString n

/-- The `HH:MM` rendering of a timestamp: zero-padded `getHours()`, a
colon, zero-padded `getMinutes()`. -/
def formatHM (t : ℤ) : String :=
  pad2 (hourOf t).toNat ++ ":" ++ pad2 (minuteOf t).toNat

structure AdaptiveTimeInfo where
  scheduledTime : ℤ
  adaptiveTime : String
  meanDelay : ℤ
  isAdaptive : Bool
  daysAnalyzed : ℕ
deriving DecidableEq, Repr

/-- Function `getAdaptiveReminderTime` (adaptiveTimeService): the scheduled timestamp
shifted by the mean delay in minutes, rendered back to `HH:MM`. -/
def getAdaptiveReminderTime (logs : List MedicineLog)
    (patientId medicineId : ℕ) (scheduledTime today : ℤ) : AdaptiveTimeInfo :=
  let r := calculateMeanDelay logs patientId medicineId today
  { scheduledTime := scheduledTime
    adaptiveTime := formatHM (scheduledTime + r.meanDelay * msPerMinute)
    meanDelay := r.meanDelay
    isAdaptive := decide (MIN_DAYS_FOR_ADAPTIVE ≤ r.daysAnalyzed)
    daysAnalyzed := r.daysAnalyzed }

/-- Number of distinct scheduled calendar days among a set of logs.  (Used
to state what the spec calls "days of taken logs"; the source counts logs,
not days.) -/
def distinctDaysOf (ls : List MedicineLog) : ℕ :=
  ((ls.map fun l => dayOf l.scheduledTime).dedup).length

/-! ### Trend engine (predictAdherenceTrend) -/

inductive Trend where
  | improving
  | declining
  | stable
deriving DecidableEq, Repr

/-- Sum of a list of rationals (the `reduce((sum, s) => sum + s, 0)`). -/
def rateSum (rates : List ℚ) : ℚ := rates.foldl (· + ·) 0

/-- Function `predictAdherenceTrend` (adaptiveTimeService), applied to the stored
daily adherence rates of the window ordered oldest → newest (the query has
`ORDER BY date ASC`).  `slice(-3)` is `drop (length - 3)`, `slice(0, 3)`
is `take 3`. -/
def predictAdherenceTrend (rates : List ℚ) : Trend :=
  if rates.length < 3 then .stable
  else
    let recentRate := rateSum (rates.drop (rates.length - 3)) / 3
    let olderRate := rateSum (rates.take 3) / 3
    let difference := recentRate - olderRate
    if 10 < difference then .improving
    else if difference < -10 then .declining
    else .stable

/-! ### Most-missed time period (medicineService.getMostMissedTimePeriod) -/

/-- Rows of the query of `getMostMissedTimePeriod`: missed or skipped logs of the
patient in the trailing 30-day window. -/
def missWindowLogs (logs : List MedicineLog) (patientId : ℕ) (today : ℤ) :
    List MedicineLog :=
  logs.filter fun l =>
    l.patientId == patientId &&
    decide (dayOf today - 30 ≤ dayOf l.scheduledTime) &&
    (l.status == Status.missed || l.status == Status.skipped)

/-- The `forEach` tally of `getMostMissedTimePeriod`: counts for the
Morning / Afternoon / Evening / Night buckets, in that order. -/
def tallyPeriods (ls : List MedicineLog) : ℕ × ℕ × ℕ × ℕ :=
  ls.foldl
    (fun c l =>
      let hour := hourOf l.scheduledTime
      if 6 ≤ hour ∧ hour < 12 then (c.1 + 1, c.2.1, c.2.2.1, c.2.2.2)
      else if 12 ≤ hour ∧ hour < 18 then (c.1, c.2.1 + 1, c.2.2.1, c.2.2.2)
      else if 18 ≤ hour ∧ hour < 24 then (c.1, c.2.1, c.2.2.1 + 1, c.2.2.2)
      else (c.1, c.2.1, c.2.2.1, c.2.2.2 + 1))
    (0, 0, 0, 0)

/-- The `Object.entries(timePeriods).forEach` maximum loop, with entries
visited in insertion order Morning, Afternoon, Evening, Night, starting
from `maxPeriod = Morning`, `maxCount = 0`, updating on strict `>`. -/
def maxPeriodLoop (cM cA cE cN : ℕ) : String × ℕ :=
  let p0 : String × ℕ := ("Morning", 0)
  let p1 := if cM > p0.2 then ("Morning", cM) else p0
  let p2 := if cA > p1.2 then ("Afternoon", cA) else p1
  let p3 := if cE > p2.2 then ("Evening", cE) else p2
  if cN > p3.2 then ("Night", cN) else p3

/-- Function `getMostMissedTimePeriod` (medicineService). -/
def getMostMissedTimePeriod (logs : List MedicineLog) (patientId : ℕ)
    (today : ℤ) : String :=
  let ls := missWindowLogs logs patientId today
  if ls.length = 0 then "No misses recorded"
  else
    let c := tallyPeriods ls
    let m := maxPeriodLoop c.1 c.2.1 c.2.2.1 c.2.2.2
    if 0 < m.2 then m.1 else "No misses recorded"

/-! ### Alert engine (alertService.getCaregiverAlerts)

`getMedicinesByPatient` returns the `Medicines` rows of the patient in store
order; we parameterize over the row list and mirror its `WHERE patientId`
filter.  Alert fields that the claims never touch (`title`, `message`,
`createdAt` — the last is the wall clock) are omitted from the record. -/

structure Medicine where
  id : ℕ
  patientId : ℕ
  name : String
  stock : ℤ
deriving DecidableEq, Repr

structure Alert where
  id : String
  type : String
  severity : String
  medicineId : Option ℕ
deriving DecidableEq, Repr

/-- Function `getMissedCountByMedicine`: number of missed logs of the medicine in the
trailing 30-day window. -/
def getMissedCountByMedicine (logs : List MedicineLog)
    (medicineId patientId : ℕ) (today : ℤ) : ℕ :=
  (logs.filter fun l =>
    l.medicineId == medicineId && l.patientId == patientId &&
    decide (dayOf today - 30 ≤ dayOf l.scheduledTime) &&
    l.status == Status.missed).length

/-- Function `getMedicinesMissed3Times`: the medicines (with their miss counts, in
store order) having at least 3 missed logs in the trailing 30 days. -/
def getMedicinesMissed3Times (medicines : List Medicine)
    (logs : List MedicineLog) (patientId : ℕ) (today : ℤ) :
    List (Medicine × ℕ) :=
  (medicines.filter fun m => m.patientId == patientId).filterMap fun m =>
    let c := getMissedCountByMedicine logs m.id patientId today
    if 3 ≤ c then some (m, c) else none

/-- The alert list of `getCaregiverAlerts` in emission order: repeated-miss
alerts, then low-stock alerts, then the low-adherence alert. -/
def emittedAlerts (medicines : List Medicine) (logs : List MedicineLog)
    (patientId : ℕ) (today : ℤ) : List Alert :=
  let meds := medicines.filter fun m => m.patientId == patientId
  let missAlerts := (getMedicinesMissed3Times medicines logs patientId today).map
    fun mc =>
      { id := "missed_" ++ toString mc.1.id, type := "missed_3_times",
        severity := "critical", medicineId := some mc.1.id }
  let stockAlerts := (meds.filter fun m => decide (m.stock ≤ 5)).map
    fun m =>
      { id := "low_stock_" ++ toString m.id, type := "low_stock",
        severity := if m.stock ≤ 2 then "critical" else "warning",
        medicineId := some m.id }
  let adherenceAlerts :=
    if calculateWeeklyAdherence logs patientId today < 60 then
      [{ id := "low_adherence", type := "low_adherence",
         severity := "critical", medicineId := none }]
    else []
  missAlerts ++ stockAlerts ++ adherenceAlerts

/-- The comparator key `severityOrder = \x7b critical: 0, warning: 1 \x7d`. -/
def severityRank (s : String) : ℕ := if s = "critical" then 0 else 1

/-- Stable insertion into a list sorted by severity rank. -/
def insertBySeverity (a : Alert) : List Alert → List Alert
  | [] => [a]
  | b :: l =>
    if severityRank a.severity ≤ severityRank b.severity then a :: b :: l
    else b :: insertBySeverity a l

/-- The `alerts.sort((a, b) => severityOrder[a.severity] -
severityOrder[b.severity])` call.  ECMAScript `Array.prototype.sort` is
stable, and with a consistent comparator its result is the unique stable
sort by the comparator key, which stable insertion sort computes. -/
def sortBySeverity : List Alert → List Alert
  | [] => []
  | a :: l => insertBySeverity a (sortBySeverity l)

structure CaregiverAlerts where
  alerts : List Alert
  missedCount : ℕ
  lowStockCount : ℕ
  lowAdherence : Bool
deriving DecidableEq, Repr

/-- Function `getCaregiverAlerts` (alertService). -/
def getCaregiverAlerts (medicines : List Medicine) (logs : List MedicineLog)
    (patientId : ℕ) (today : ℤ) : CaregiverAlerts :=
  let meds := medicines.filter fun m => m.patientId == patientId
  { alerts := sortBySeverity (emittedAlerts medicines logs patientId today)
    missedCount := (getMedicinesMissed3Times medicines logs patientId today).length
    lowStockCount := (meds.filter fun m => decide (m.stock ≤ 5)).length
    lowAdherence := decide (calculateWeeklyAdherence logs patientId today < 60) }

/-! ### Dose-log status transitions (medicineService) -/

/-- The mutable per-row state touched by the status-changing operations. -/
structure LogState where
  status : Status
  takenAt : Option ℤ
  notes : Option String
deriving DecidableEq, Repr

/-- A freshly created log row (`createMedicineLog` inserts with status
`pending` and no `takenAt`). -/
def initialLogState : LogState :=
  { status := Status.pending, takenAt := none, notes := none }

/-- Operation `markMedicineTaken`: sets `status = taken`, `takenAt = now`, `notes`,
with no guard on the current status. -/
def markMedicineTaken (now : ℤ) (notes : Option String) (s : LogState) :
    LogState :=
  { s with status := Status.taken, takenAt := some now,
           notes := some (notes.getD "") }

/-- Operation `markMedicineMissed`: sets `status = missed` only; `takenAt` is left
as it is, and there is no guard on the current status. -/
def markMedicineMissed (s : LogState) : LogState :=
  { s with status := Status.missed }

/-- Operation `markMedicineSkipped`: sets `status = skipped` and `notes`; `takenAt`
is left as it is, and there is no guard on the current status. -/
def markMedicineSkipped (notes : Option String) (s : LogState) : LogState :=
  { s with status := Status.skipped, notes := some (notes.getD "Skipped by user") }

/-- One invocation of a status-changing operation. -/
inductive LogOp where
  | take (now : ℤ) (notes : Option String)
  | miss
  | skip (notes : Option String)
deriving DecidableEq, Repr

def applyLogOp (s : LogState) : LogOp → LogState
  | .take now notes => markMedicineTaken now notes s
  | .miss => markMedicineMissed s
  | .skip notes => markMedicineSkipped notes s

/-- The state of a log after a sequence of status-changing operations,
starting from a freshly created row. -/
def runLogOps (ops : List LogOp) : LogState :=
  ops.foldl applyLogOp initialLogState

/-- The data-model invariant of the spec: `takenAt` is set iff the status is
`taken`. -/
def takenAtInvariant (s : LogState) : Prop :=
  s.takenAt.isSome ↔ s.status = Status.taken

instance (s : LogState) : Decidable (takenAtInvariant s) := by
  unfold takenAtInvariant; infer_instance

/-! ### Daily adherence stats (updateAdherenceStats, AdherenceStats table) -/

/-- One row of the `AdherenceStats` table.  Its schema is
`id INTEGER PRIMARY KEY AUTOINCREMENT, patientId, date, totalDoses,
takenDoses, adherenceRate` with **no** UNIQUE constraint on
`(patientId, date)`. -/
structure StatRow where
  id : ℕ
  patientId : ℕ
  date : ℤ
  totalDoses : ℕ
  takenDoses : ℕ
  adherenceRate : ℚ
deriving DecidableEq, Repr

structure StatsTable where
  rows : List StatRow
  nextId : ℕ
deriving DecidableEq, Repr

/-- The statement `INSERT OR REPLACE INTO AdherenceStats (patientId, date, totalDoses,
takenDoses, adherenceRate) VALUES (...)`.  The SQLite `OR REPLACE` only fires
on a UNIQUE / PRIMARY KEY violation; the statement omits `id`, so a fresh
autoincrement id is assigned, no constraint can be violated, and the
statement always appends a new row. -/
def insertOrReplaceStat (t : StatsTable) (patientId : ℕ) (date : ℤ)
    (totalDoses takenDoses : ℕ) (adherenceRate : ℚ) : StatsTable :=
  { rows := t.rows ++
      [{ id := t.nextId, patientId := patientId, date := date,
         totalDoses := totalDoses, takenDoses := takenDoses,
         adherenceRate := adherenceRate }]
    nextId := t.nextId + 1 }

/-- Function `updateAdherenceStats` (medicineService): recomputes the current
`\x7b total, taken \x7d` from the logs and writes the stat row (unrounded
rate; `100` when there are no logs). -/
def updateAdherenceStats (t : StatsTable) (logs : List MedicineLog)
    (patientId : ℕ) (today : ℤ) : StatsTable :=
  let ls := todayLogs logs patientId today
  let totalDoses := ls.length
  let takenDoses := takenCount ls
  let adherenceRate : ℚ :=
    if 0 < totalDoses then (takenDoses : ℚ) / (totalDoses : ℚ) * 100 else 100
  insertOrReplaceStat t patientId (dayOf today) totalDoses takenDoses
    adherenceRate

/-- The rows the store holds for one `(patientId, date)` key. -/
def statRowsFor (t : StatsTable) (patientId : ℕ) (date : ℤ) : List StatRow :=
  t.rows.filter fun r => r.patientId == patientId && r.date == date

/-! ### Concrete inputs used by witnesses and counterexamples -/

def demoDay : ℤ := 100 * msPerDay

/-- Three taken logs of medicine 1, patient 1, all scheduled on the same
calendar day, taken 5, 10 and 0 minutes late. -/
def demoSameDayLogs : List MedicineLog :=
  [ { id := 1, medicineId := 1, patientId := 1,
      scheduledTime := demoDay + 8 * msPerHour,
      takenAt := some (demoDay + 8 * msPerHour + 5 * msPerMinute),
      status := Status.taken },
    { id := 2, medicineId := 1, patientId := 1,
      scheduledTime := demoDay + 12 * msPerHour,
      takenAt := some (demoDay + 12 * msPerHour + 10 * msPerMinute),
      status := Status.taken },
    { id := 3, medicineId := 1, patientId := 1,
      scheduledTime := demoDay + 20 * msPerHour,
      takenAt := some (demoDay + 20 * msPerHour),
      status := Status.taken } ]

/-! ### Helper lemmas -/

lemma jsRound_nonneg {q : ℚ} (h : 0 ≤ q) : 0 ≤ jsRound q := by
  unfold jsRound
  exact Int.le_floor.mpr (by push_cast; linarith)

lemma jsRound_le_of_le {q : ℚ} {n : ℤ} (h : q ≤ (n : ℚ)) : jsRound q ≤ n := by
  unfold jsRound
  have hlt : (⌊q + 1/2⌋ : ℤ) < n + 1 := by
    rw [Int.floor_lt]
    push_cast
    linarith
  omega

lemma takenCount_le_length (ls : List MedicineLog) :
    takenCount ls ≤ ls.length :=
  List.length_filter_le _ ls

/-- Shared shape of the two window-rate computations. -/
lemma windowRate_spec (taken total : ℕ) (h : taken ≤ total) :
    ((if total = 0 then (100 : ℤ)
      else jsRound ((taken : ℚ) / (total : ℚ) * 100)) =
      if total = 0 then 100
      else jsRound (100 * (taken : ℚ) / (total : ℚ))) ∧
    0 ≤ (if total = 0 then (100 : ℤ)
         else jsRound ((taken : ℚ) / (total : ℚ) * 100)) ∧
    (if total = 0 then (100 : ℤ)
     else jsRound ((taken : ℚ) / (total : ℚ) * 100)) ≤ 100 := by
  rcases Nat.eq_zero_or_pos total with h0 | hpos
  · simp [h0]
  · have hne : total ≠ 0 := Nat.pos_iff_ne_zero.mp hpos
    have htot : (0 : ℚ) < (total : ℚ) := by exact_mod_cast hpos
    have hq0 : 0 ≤ (taken : ℚ) / (total : ℚ) * 100 := by positivity
    have hq1 : (taken : ℚ) / (total : ℚ) * 100 ≤ 100 := by
      have : (taken : ℚ) / (total : ℚ) ≤ 1 :=
        (div_le_one htot).mpr (by exact_mod_cast h)
      linarith
    refine ⟨?_, ?_, ?_⟩
    · simp only [hne, if_false]
      ring_nf
    · simp only [hne, if_false]
      exact jsRound_nonneg hq0
    · simp only [hne, if_false]
      exact jsRound_le_of_le (by push_cast; linarith)

lemma posDelaySum_nonneg (ls : List MedicineLog) : 0 ≤ posDelaySum ls := by
  suffices h : ∀ (ls : List MedicineLog) (acc : ℚ),
      acc ≤ ls.foldl
        (fun acc l =>
          match l.takenAt with
          | some _ => if 0 < delayMinutes l then acc + delayMinutes l else acc
          | none => acc)
        acc by
    simpa [posDelaySum] using h ls 0
  intro ls
  induction ls with
  | nil => intro acc; simp
  | cons a t ih =>
    intro acc
    simp only [List.foldl_cons]
    refine le_trans ?_ (ih _)
    rcases ha : a.takenAt with _ | t'
    · simp
    · simp only []
      split
      · linarith [ (by assumption : 0 < delayMinutes a) ]
      · exact le_refl acc

/-! ### Claim theorems -/

/-- C2: the adherence rate of the "today" window and of the trailing-7-day
window equals `100` when the window holds no dose logs, and
`round(taken/total * 100)` with half-up rounding otherwise; in every case
the rate lies in `[0, 100]`. -/
theorem adherenceRate_spec (logs : List MedicineLog) (patientId : ℕ)
    (today : ℤ) :
    (calculateAdherenceRate logs patientId today =
      if (todayLogs logs patientId today).length = 0 then 100
      else jsRound (100 * (takenCount (todayLogs logs patientId today) : ℚ) /
        ((todayLogs logs patientId today).length : ℚ))) ∧
    0 ≤ calculateAdherenceRate logs patientId today ∧
    calculateAdherenceRate logs patientId today ≤ 100 ∧
    (calculateWeeklyAdherence logs patientId today =
      if (weekLogs logs patientId today).length = 0 then 100
      else jsRound (100 * (takenCount (weekLogs logs patientId today) : ℚ) /
        ((weekLogs logs patientId today).length : ℚ))) ∧
    0 ≤ calculateWeeklyAdherence logs patientId today ∧
    calculateWeeklyAdherence logs patientId today ≤ 100 := by
  have e1 : calculateAdherenceRate logs patientId today =
      if (todayLogs logs patientId today).length = 0 then (100 : ℤ)
      else jsRound ((takenCount (todayLogs logs patientId today) : ℚ) /
        ((todayLogs logs patientId today).length : ℚ) * 100) := rfl
  have e2 : calculateWeeklyAdherence logs patientId today =
      if (weekLogs logs patientId today).length = 0 then (100 : ℤ)
      else jsRound ((takenCount (weekLogs logs patientId today) : ℚ) /
        ((weekLogs logs patientId today).length : ℚ) * 100) := rfl
  have h1 := windowRate_spec (takenCount (todayLogs logs patientId today))
    (todayLogs logs patientId today).length (takenCount_le_length _)
  have h2 := windowRate_spec (takenCount (weekLogs logs patientId today))
    (weekLogs logs patientId today).length (takenCount_le_length _)
  rw [e1, e2]
  exact ⟨h1.1, h1.2.1, h1.2.2, h2.1, h2.2.1, h2.2.2⟩

/-- C3: `calculateMeanDelay` returns `round(S / n)` where `S` is the sum of
the positive delays (in minutes) of the analyzed logs and `n` the count of
all analyzed logs, once `n` reaches the adaptation threshold; below the
threshold it returns `0`; the mean delay is never negative, and
`daysAnalyzed` is the count of analyzed logs. -/
theorem calculateMeanDelay_spec (logs : List MedicineLog)
    (patientId medicineId : ℕ) (today : ℤ) :
    ((calculateMeanDelay logs patientId medicineId today).meanDelay =
      if (adaptiveWindowLogs logs patientId medicineId today).length <
          MIN_DAYS_FOR_ADAPTIVE then 0
      else jsRound
        (posDelaySum (adaptiveWindowLogs logs patientId medicineId today) /
          ((adaptiveWindowLogs logs patientId medicineId today).length : ℚ))) ∧
    0 ≤ (calculateMeanDelay logs patientId medicineId today).meanDelay ∧
    (calculateMeanDelay logs patientId medicineId today).daysAnalyzed =
      (adaptiveWindowLogs logs patientId medicineId today).length := by
  unfold calculateMeanDelay
  rcases Nat.lt_or_ge (adaptiveWindowLogs logs patientId medicineId today).length
      MIN_DAYS_FOR_ADAPTIVE with hlt | hge
  · simp [hlt]
  · have hne : ¬ (adaptiveWindowLogs logs patientId medicineId today).length <
        MIN_DAYS_FOR_ADAPTIVE := Nat.not_lt.mpr hge
    have hpos : (0 : ℚ) <
        ((adaptiveWindowLogs logs patientId medicineId today).length : ℚ) := by
      have : 0 < (adaptiveWindowLogs logs patientId medicineId today).length := by
        unfold MIN_DAYS_FOR_ADAPTIVE at hge; omega
      exact_mod_cast this
    refine ⟨by simp [hne], ?_, by simp [hne]⟩
    simp only [hne, if_false]
    exact jsRound_nonneg (div_nonneg (posDelaySum_nonneg _) (le_of_lt hpos))

/-- C4 counterexample: three taken logs scheduled on one and the same
calendar day already switch adaptation on, so `isAdaptive` is **not**
equivalent to "at least 3 days of taken logs exist" — the code thresholds
on the number of qualifying logs, not on distinct days. -/
theorem isAdaptive_days_counterexample :
    ¬ ((getAdaptiveReminderTime demoSameDayLogs 1 1 demoDay demoDay).isAdaptive
        = true ↔
      3 ≤ distinctDaysOf (adaptiveWindowLogs demoSameDayLogs 1 1 demoDay)) := by
  decide

/-- C4 (amended): `isAdaptive` is true iff at least 3 qualifying taken
**logs** (not distinct days) exist in the trailing 5-day window; with fewer
it returns `isAdaptive = false` and delay `0`, and `daysAnalyzed` reports
the number of qualifying logs analyzed. -/
theorem isAdaptive_spec (logs : List MedicineLog) (patientId medicineId : ℕ)
    (scheduledTime today : ℤ) :
    ((getAdaptiveReminderTime logs patientId medicineId scheduledTime
        today).isAdaptive = true ↔
      MIN_DAYS_FOR_ADAPTIVE ≤
        (adaptiveWindowLogs logs patientId medicineId today).length) ∧
    (getAdaptiveReminderTime logs patientId medicineId scheduledTime
        today).daysAnalyzed =
      (adaptiveWindowLogs logs patientId medicineId today).length ∧
    ((adaptiveWindowLogs logs patientId medicineId today).length <
        MIN_DAYS_FOR_ADAPTIVE →
      (getAdaptiveReminderTime logs patientId medicineId scheduledTime
          today).isAdaptive = false ∧
      (getAdaptiveReminderTime logs patientId medicineId scheduledTime
          today).meanDelay = 0) := by
  unfold getAdaptiveReminderTime calculateMeanDelay
  rcases Nat.lt_or_ge (adaptiveWindowLogs logs patientId medicineId today).length
      MIN_DAYS_FOR_ADAPTIVE with hlt | hge
  · simp [hlt, Nat.not_le.mpr hlt]
  · simp [Nat.not_lt.mpr hge, hge, Nat.not_lt.mpr]

theorem isAdaptive_spec_witness :
    (getAdaptiveReminderTime [] 1 1 0 0).isAdaptive = false ∧
    (getAdaptiveReminderTime [] 1 1 0 0).meanDelay = 0 :=
  (isAdaptive_spec [] 1 1 0 0).2.2 (by decide)

/-- C8: `adaptiveTime` is the `HH:MM` rendering of the scheduled timestamp
shifted by `meanDelay` minutes; when `meanDelay = 0` — in particular for a
medicine with no qualifying taken history — it equals the scheduled clock
time exactly. -/
theorem adaptiveTime_spec (logs : List MedicineLog)
    (patientId medicineId : ℕ) (scheduledTime today : ℤ) :
    ((getAdaptiveReminderTime logs patientId medicineId scheduledTime
        today).adaptiveTime =
      formatHM (scheduledTime +
        (getAdaptiveReminderTime logs patientId medicineId scheduledTime
          today).meanDelay * msPerMinute)) ∧
    ((getAdaptiveReminderTime logs patientId medicineId scheduledTime
        today).meanDelay = 0 →
      (getAdaptiveReminderTime logs patientId medicineId scheduledTime
          today).adaptiveTime = formatHM scheduledTime) ∧
    (adaptiveWindowLogs logs patientId medicineId today = [] →
      (getAdaptiveReminderTime logs patientId medicineId scheduledTime
          today).meanDelay = 0 ∧
      (getAdaptiveReminderTime logs patientId medicineId scheduledTime
          today).adaptiveTime = formatHM scheduledTime) := by
  refine ⟨rfl, ?_, ?_⟩
  · intro h
    show formatHM (scheduledTime +
      (calculateMeanDelay logs patientId medicineId today).meanDelay *
        msPerMinute) = formatHM scheduledTime
    have h' : (calculateMeanDelay logs patientId medicineId today).meanDelay
        = 0 := h
    rw [h']
    norm_num
  · intro h
    have h0 : (calculateMeanDelay logs patientId medicineId today).meanDelay
        = 0 := by
      unfold calculateMeanDelay
      rw [h]
      simp [MIN_DAYS_FOR_ADAPTIVE]
    refine ⟨h0, ?_⟩
    show formatHM (scheduledTime +
      (calculateMeanDelay logs patientId medicineId today).meanDelay *
        msPerMinute) = formatHM scheduledTime
    rw [h0]
    norm_num

theorem adaptiveTime_spec_witness :
    (getAdaptiveReminderTime [] 1 1 demoDay 0).meanDelay = 0 ∧
    (getAdaptiveReminderTime [] 1 1 demoDay 0).adaptiveTime =
      formatHM demoDay :=
  (adaptiveTime_spec [] 1 1 demoDay 0).2.2 rfl

/-- C5: `predictAdherenceTrend` over the daily rates (oldest → newest)
returns `stable` on fewer than 3 points; otherwise it compares the mean of
the last 3 values with the mean of the first 3 (both slices really hold 3
values): difference above `10` gives `improving`, below `-10` gives
`declining`, anything else `stable`.  The examples of the spec evaluate as
stated. -/
theorem predictAdherenceTrend_spec (rates : List ℚ) :
    (predictAdherenceTrend rates =
      if rates.length < 3 then Trend.stable
      else
        if 10 < rateSum (rates.drop (rates.length - 3)) / 3 -
            rateSum (rates.take 3) / 3 then Trend.improving
        else if rateSum (rates.drop (rates.length - 3)) / 3 -
            rateSum (rates.take 3) / 3 < -10 then Trend.declining
        else Trend.stable) ∧
    (3 ≤ rates.length →
      (rates.drop (rates.length - 3)).length = 3 ∧
      (rates.take 3).length = 3) ∧
    predictAdherenceTrend [50, 50, 50, 90, 90, 90] = Trend.improving ∧
    predictAdherenceTrend [90, 90, 90, 85, 88, 86] = Trend.stable ∧
    predictAdherenceTrend [50, 90] = Trend.stable := by
  refine ⟨rfl, ?_, by norm_num [predictAdherenceTrend, rateSum],
    by norm_num [predictAdherenceTrend, rateSum],
    by norm_num [predictAdherenceTrend, rateSum]⟩
  intro h
  constructor
  · rw [List.length_drop]
    omega
  · rw [List.length_take]
    omega

theorem predictAdherenceTrend_spec_witness :
    ([50, 50, 50, 90, 90, 90] : List ℚ).length = 6 ∧
    (([50, 50, 50, 90, 90, 90] : List ℚ).drop 3).length = 3 ∧
    (([50, 50, 50, 90, 90, 90] : List ℚ).take 3).length = 3 :=
  ⟨by decide,
    ((predictAdherenceTrend_spec [50, 50, 50, 90, 90, 90]).2.1
      (by decide)).1,
    ((predictAdherenceTrend_spec [50, 50, 50, 90, 90, 90]).2.1
      (by decide)).2⟩

lemma tallyPeriods_sum (ls : List MedicineLog) :
    (tallyPeriods ls).1 + (tallyPeriods ls).2.1 + (tallyPeriods ls).2.2.1 +
      (tallyPeriods ls).2.2.2 = ls.length := by
  suffices h : ∀ (ls : List MedicineLog) (c : ℕ × ℕ × ℕ × ℕ),
      (ls.foldl
        (fun c l =>
          let hour := hourOf l.scheduledTime
          if 6 ≤ hour ∧ hour < 12 then (c.1 + 1, c.2.1, c.2.2.1, c.2.2.2)
          else if 12 ≤ hour ∧ hour < 18 then (c.1, c.2.1 + 1, c.2.2.1, c.2.2.2)
          else if 18 ≤ hour ∧ hour < 24 then (c.1, c.2.1, c.2.2.1 + 1, c.2.2.2)
          else (c.1, c.2.1, c.2.2.1, c.2.2.2 + 1))
        c).1 +
      (ls.foldl
        (fun c l =>
          let hour := hourOf l.scheduledTime
          if 6 ≤ hour ∧ hour < 12 then (c.1 + 1, c.2.1, c.2.2.1, c.2.2.2)
          else if 12 ≤ hour ∧ hour < 18 then (c.1, c.2.1 + 1, c.2.2.1, c.2.2.2)
          else if 18 ≤ hour ∧ hour < 24 then (c.1, c.2.1, c.2.2.1 + 1, c.2.2.2)
          else (c.1, c.2.1, c.2.2.1, c.2.2.2 + 1))
        c).2.1 +
      (ls.foldl
        (fun c l =>
          let hour := hourOf l.scheduledTime
          if 6 ≤ hour ∧ hour < 12 then (c.1 + 1, c.2.1, c.2.2.1, c.2.2.2)
          else if 12 ≤ hour ∧ hour < 18 then (c.1, c.2.1 + 1, c.2.2.1, c.2.2.2)
          else if 18 ≤ hour ∧ hour < 24 then (c.1, c.2.1, c.2.2.1 + 1, c.2.2.2)
          else (c.1, c.2.1, c.2.2.1, c.2.2.2 + 1))
        c).2.2.1 +
      (ls.foldl
        (fun c l =>
          let hour := hourOf l.scheduledTime
          if 6 ≤ hour ∧ hour < 12 then (c.1 + 1, c.2.1, c.2.2.1, c.2.2.2)
          else if 12 ≤ hour ∧ hour < 18 then (c.1, c.2.1 + 1, c.2.2.1, c.2.2.2)
          else if 18 ≤ hour ∧ hour < 24 then (c.1, c.2.1, c.2.2.1 + 1, c.2.2.2)
          else (c.1, c.2.1, c.2.2.1, c.2.2.2 + 1))
        c).2.2.2
      = c.1 + c.2.1 + c.2.2.1 + c.2.2.2 + ls.length by
    simpa [tallyPeriods] using h ls (0, 0, 0, 0)
  intro ls
  induction ls with
  | nil => intro c; simp
  | cons a t ih =>
    intro c
    simp only [List.foldl_cons]
    rw [ih]
    split_ifs <;> simp <;> omega

lemma maxPeriodLoop_pos {cM cA cE cN : ℕ} (h : 0 < cM + cA + cE + cN) :
    0 < (maxPeriodLoop cM cA cE cN).2 := by
  simp only [maxPeriodLoop]
  split_ifs <;> simp_all <;> omega

/-- The strict-improvement maximum loop picks the first period, in
Morning → Afternoon → Evening → Night order, whose count is maximal. -/
lemma maxPeriodLoop_fst (cM cA cE cN : ℕ) :
    (maxPeriodLoop cM cA cE cN).1 =
      if cA ≤ cM ∧ cE ≤ cM ∧ cN ≤ cM then "Morning"
      else if cE ≤ cA ∧ cN ≤ cA then "Afternoon"
      else if cN ≤ cE then "Evening"
      else "Night" := by
  simp only [maxPeriodLoop]
  split_ifs <;> simp_all <;> omega

/-- C6: `getMostMissedTimePeriod` buckets the scheduled hour of every
missed or skipped log of the trailing 30 days into Morning [6,12),
Afternoon [12,18), Evening [18,24), Night [0,6), and returns the first
bucket in Morning → Afternoon → Evening → Night order whose count is
maximal; with no missed or skipped logs in the window it returns the
sentinel. -/
theorem getMostMissedTimePeriod_spec (logs : List MedicineLog)
    (patientId : ℕ) (today : ℤ) :
    getMostMissedTimePeriod logs patientId today =
      if (missWindowLogs logs patientId today).length = 0 then
        "No misses recorded"
      else
        if (tallyPeriods (missWindowLogs logs patientId today)).2.1 ≤
             (tallyPeriods (missWindowLogs logs patientId today)).1 ∧
           (tallyPeriods (missWindowLogs logs patientId today)).2.2.1 ≤
             (tallyPeriods (missWindowLogs logs patientId today)).1 ∧
           (tallyPeriods (missWindowLogs logs patientId today)).2.2.2 ≤
             (tallyPeriods (missWindowLogs logs patientId today)).1 then
          "Morning"
        else if (tallyPeriods (missWindowLogs logs patientId today)).2.2.1 ≤
             (tallyPeriods (missWindowLogs logs patientId today)).2.1 ∧
           (tallyPeriods (missWindowLogs logs patientId today)).2.2.2 ≤
             (tallyPeriods (missWindowLogs logs patientId today)).2.1 then
          "Afternoon"
        else if (tallyPeriods (missWindowLogs logs patientId today)).2.2.2 ≤
             (tallyPeriods (missWindowLogs logs patientId today)).2.2.1 then
          "Evening"
        else "Night" := by
  unfold getMostMissedTimePeriod
  rcases Nat.eq_zero_or_pos (missWindowLogs logs patientId today).length with
    h0 | hpos
  · simp [h0]
  · have hne : ¬ (missWindowLogs logs patientId today).length = 0 := by omega
    have hsum := tallyPeriods_sum (missWindowLogs logs patientId today)
    have hp : 0 < (maxPeriodLoop
        (tallyPeriods (missWindowLogs logs patientId today)).1
        (tallyPeriods (missWindowLogs logs patientId today)).2.1
        (tallyPeriods (missWindowLogs logs patientId today)).2.2.1
        (tallyPeriods (missWindowLogs logs patientId today)).2.2.2).2 :=
      maxPeriodLoop_pos (by omega)
    simp only [hne, if_false, hp, if_true, if_pos]
    rw [maxPeriodLoop_fst]

lemma severityRank_of_critical {a : Alert} (h : a.severity = "critical") :
    severityRank a.severity = 0 := by
  simp [severityRank, h]

lemma severityRank_of_not_critical {a : Alert} (h : a.severity ≠ "critical") :
    severityRank a.severity = 1 := by
  simp [severityRank, h]

lemma insertBySeverity_front (a : Alert) (h : a.severity = "critical")
    (l : List Alert) : insertBySeverity a l = a :: l := by
  cases l with
  | nil => rfl
  | cons b t =>
    unfold insertBySeverity
    rw [if_pos]
    rw [severityRank_of_critical h]
    exact Nat.zero_le _

lemma insertBySeverity_mid (a : Alert) (ha : a.severity = "warning")
    (C W : List Alert) (hC : ∀ b ∈ C, b.severity = "critical")
    (hW : ∀ b ∈ W, b.severity ≠ "critical") :
    insertBySeverity a (C ++ W) = C ++ a :: W := by
  have ha1 : severityRank a.severity = 1 :=
    severityRank_of_not_critical (by rw [ha]; decide)
  induction C with
  | nil =>
    simp only [List.nil_append]
    cases W with
    | nil => rfl
    | cons w t =>
      unfold insertBySeverity
      rw [if_pos]
      rw [ha1, severityRank_of_not_critical (hW w (List.mem_cons_self _ _))]
  | cons c Ct ih =>
    have hc := hC c (List.mem_cons_self _ _)
    show insertBySeverity a (c :: (Ct ++ W)) = c :: (Ct ++ a :: W)
    unfold insertBySeverity
    rw [if_neg, ih (fun b hb => hC b (List.mem_cons_of_mem _ hb))]
    rw [ha1, severityRank_of_critical hc]
    omega

lemma sortBySeverity_filter (l : List Alert)
    (h : ∀ a ∈ l, a.severity = "critical" ∨ a.severity = "warning") :
    sortBySeverity l =
      l.filter (fun a => a.severity == "critical") ++
      l.filter (fun a => a.severity == "warning") := by
  induction l with
  | nil => rfl
  | cons a t ih =>
    have ht : ∀ b ∈ t, b.severity = "critical" ∨ b.severity = "warning" :=
      fun b hb => h b (List.mem_cons_of_mem _ hb)
    show insertBySeverity a (sortBySeverity t) = _
    rw [ih ht]
    rcases h a (List.mem_cons_self _ _) with hc | hw
    · rw [insertBySeverity_front a hc]
      simp [List.filter_cons, hc]
    · rw [insertBySeverity_mid a hw _ _ ?hC ?hW]
      · simp [List.filter_cons, hw]
      case hC =>
        intro b hb
        rw [List.mem_filter] at hb
        exact eq_of_beq hb.2
      case hW =>
        intro b hb
        rw [List.mem_filter] at hb
        have hb2 : b.severity = "warning" := eq_of_beq hb.2
        rw [hb2]
        decide

lemma insertBySeverity_perm (a : Alert) (l : List Alert) :
    (insertBySeverity a l).Perm (a :: l) := by
  induction l with
  | nil => exact List.Perm.refl _
  | cons b t ih =>
    unfold insertBySeverity
    split
    · exact List.Perm.refl _
    · exact (ih.cons b).trans (List.Perm.swap a b t)

lemma sortBySeverity_perm (l : List Alert) : (sortBySeverity l).Perm l := by
  induction l with
  | nil => exact List.Perm.refl _
  | cons a t ih =>
    exact (insertBySeverity_perm a (sortBySeverity t)).trans (ih.cons a)

lemma emittedAlerts_severities (medicines : List Medicine)
    (logs : List MedicineLog) (patientId : ℕ) (today : ℤ) :
    ∀ a ∈ emittedAlerts medicines logs patientId today,
      a.severity = "critical" ∨ a.severity = "warning" := by
  intro a ha
  unfold emittedAlerts at ha
  simp only [List.mem_append, List.mem_map] at ha
  rcases ha with (⟨m, _hm, rfl⟩ | ⟨m, _hm, rfl⟩) | hadh
  · left; rfl
  · dsimp only
    split_ifs
    · left; rfl
    · right; rfl
  · split_ifs at hadh with hcond
    · rcases List.mem_singleton.mp hadh with rfl
      left; rfl
    · exact absurd hadh (List.not_mem_nil a)

/-- C7: the alert list of `getCaregiverAlerts` is the stable
severity-ranked sort of the emitted list: all critical alerts (in emission
order: repeated-miss, then low-stock, then low-adherence) followed by all
warning alerts (again in emission order). -/
theorem getCaregiverAlerts_sorted (medicines : List Medicine)
    (logs : List MedicineLog) (patientId : ℕ) (today : ℤ) :
    (getCaregiverAlerts medicines logs patientId today).alerts =
      (emittedAlerts medicines logs patientId today).filter
        (fun a => a.severity == "critical") ++
      (emittedAlerts medicines logs patientId today).filter
        (fun a => a.severity == "warning") := by
  show sortBySeverity (emittedAlerts medicines logs patientId today) = _
  exact sortBySeverity_filter _ (emittedAlerts_severities _ _ _ _)

lemma getMedicinesMissed3Times_length (medicines : List Medicine)
    (logs : List MedicineLog) (patientId : ℕ) (today : ℤ) :
    (getMedicinesMissed3Times medicines logs patientId today).length =
      ((medicines.filter fun m => m.patientId == patientId).filter
        (fun m =>
          decide (3 ≤ getMissedCountByMedicine logs m.id patientId today))).length := by
  unfold getMedicinesMissed3Times
  generalize (medicines.filter fun m => m.patientId == patientId) = l
  induction l with
  | nil => rfl
  | cons a t ih =>
    by_cases h : 3 ≤ getMissedCountByMedicine logs a.id patientId today <;>
      simp [List.filterMap_cons, List.filter_cons, h, ih]

/-- C10: `missedCount` counts the medicines with at least 3 missed logs in
the trailing 30 days — one per emitted `missed_3_times` alert, not the
total number of missed doses — and `lowStockCount` counts the medicines
with `stock ≤ 5`. -/
theorem getCaregiverAlerts_counts (medicines : List Medicine)
    (logs : List MedicineLog) (patientId : ℕ) (today : ℤ) :
    ((getCaregiverAlerts medicines logs patientId today).missedCount =
      ((medicines.filter fun m => m.patientId == patientId).filter
        (fun m =>
          decide (3 ≤ getMissedCountByMedicine logs m.id patientId today))).length) ∧
    ((getCaregiverAlerts medicines logs patientId today).missedCount =
      ((getCaregiverAlerts medicines logs patientId today).alerts.filter
        (fun a => a.type == "missed_3_times")).length) ∧
    ((getCaregiverAlerts medicines logs patientId today).lowStockCount =
      ((medicines.filter fun m => m.patientId == patientId).filter
        (fun m => decide (m.stock ≤ 5))).length) := by
  refine ⟨getMedicinesMissed3Times_length medicines logs patientId today,
    ?_, rfl⟩
  have hperm :
      ((getCaregiverAlerts medicines logs patientId today).alerts.filter
        (fun a => a.type == "missed_3_times")).length =
      ((emittedAlerts medicines logs patientId today).filter
        (fun a => a.type == "missed_3_times")).length :=
    ((sortBySeverity_perm
        (emittedAlerts medicines logs patientId today)).filter _).length_eq
  rw [hperm]
  show (getMedicinesMissed3Times medicines logs patientId today).length = _
  unfold emittedAlerts
  simp only [List.filter_append, List.length_append]
  rw [List.filter_map, List.filter_map]
  simp only [Function.comp_def]
  have hadh : ((if calculateWeeklyAdherence logs patientId today < 60 then
      [{ id := "low_adherence", type := "low_adherence",
         severity := "critical", medicineId := none }]
      else ([] : List Alert)).filter
        (fun a => a.type == "missed_3_times")).length = 0 := by
    split_ifs <;> rfl
  rw [hadh]
  simp

/-- C9 counterexample: the status-changing operations do not guard the
current status, so a log marked taken can afterwards be marked missed,
leaving `takenAt` set while the status is `missed` — the claimed invariant
fails on a reachable state, and a taken log is un-taken. -/
theorem logStatus_invariant_counterexample :
    (runLogOps [LogOp.take 5 none]).status = Status.taken ∧
    (runLogOps [LogOp.take 5 none, LogOp.miss]).status = Status.missed ∧
    ¬ takenAtInvariant (runLogOps [LogOp.take 5 none, LogOp.miss]) := by
  refine ⟨rfl, rfl, ?_⟩
  decide

/-- C9 (amended): a freshly created log satisfies the invariant, and any
single status-changing operation applied to a log that is still pending
(hence with `takenAt` unset) preserves it; the operations themselves do
not prevent a second transition, so the invariant is only guaranteed when
each log receives at most one status-changing operation. -/
theorem logStatus_invariant_of_pending (s : LogState) (op : LogOp)
    (_h1 : s.status = Status.pending) (h2 : s.takenAt = none) :
    takenAtInvariant initialLogState ∧ takenAtInvariant (applyLogOp s op) := by
  refine ⟨by decide, ?_⟩
  cases op with
  | take now notes =>
    simp [applyLogOp, markMedicineTaken, takenAtInvariant]
  | miss =>
    simp [applyLogOp, markMedicineMissed, takenAtInvariant, h2]
  | skip notes =>
    simp [applyLogOp, markMedicineSkipped, takenAtInvariant, h2]

theorem logStatus_invariant_of_pending_witness :
    takenAtInvariant initialLogState ∧
    takenAtInvariant (applyLogOp initialLogState LogOp.miss) :=
  logStatus_invariant_of_pending initialLogState LogOp.miss rfl rfl

/-- C1: `updateAdherenceStats` is **not** idempotent.  The
`AdherenceStats` schema has no UNIQUE constraint on `(patientId, date)`,
so its `INSERT OR REPLACE` (which omits the autoincrement `id`) never hits
a conflict and appends a fresh row on every call: two calls for the same
patient and date leave two rows for that key, not one. -/
theorem updateAdherenceStats_duplicates (t : StatsTable)
    (logs : List MedicineLog) (patientId : ℕ) (today : ℤ) :
    (statRowsFor
      (updateAdherenceStats (updateAdherenceStats t logs patientId today)
        logs patientId today)
      patientId (dayOf today)).length =
      (statRowsFor t patientId (dayOf today)).length + 2 := by
  unfold updateAdherenceStats insertOrReplaceStat statRowsFor
  simp [List.filter_append]

end Rakshak
